import Mathlib

/-!
Shallow embedding of the MAVLink protocol engine of this repository
(src/src/comm/MAVLinkProtocol.cc), together with proofs of the behavioural
claims about it.  The embedding follows the source member for member:

* `ProtocolState` carries the fields of class MAVLinkProtocol that the
  inbound pipeline reads or writes (the 256x256 `lastIndex` table is a
  function to `Option Nat`, with `none` standing for the sentinel -1, plus
  the four loss counters, the one-shot version-mismatch latch, the
  configuration flags and the logging state).
* `trackAndReport` is the counting / sequence-reconciliation / loss-ratio
  block of `receiveBytes` (lines 236-295 of the source).
* `processMessage` is the body of `receiveBytes` for one successfully
  decoded message (lines 165-301), and `processAll` folds it over a list
  of decoded messages, mirroring the parse loop.
* `enableLogging` mirrors `MAVLinkProtocol::enableLogging`.
* `mavlink_msg_to_send_buffer` / `logRecord` mirror the log-record
  construction in the logging block of `receiveBytes` (lines 167-183).

The vehicle registry (UASManager / QGCMAVLinkUASFactory) is an external
collaborator of this subsystem; following its interface it is embedded as
the list of system ids for which a vehicle object exists, where lookup is
list membership and creation prepends the new system id.

Side effects (signals emitted by the source) are collected into an explicit
`Event` trace so that ordering claims can be stated about them.
-/

namespace MAVLinkCore

/-- MAVLink v1.0 message id of the heartbeat message (MAVLINK_MSG_ID_HEARTBEAT). -/
def MAVLINK_MSG_ID_HEARTBEAT : Nat := 0

/-- Locally supported protocol version constant (MAVLINK_VERSION). -/
def MAVLINK_VERSION : Nat := 3

/-- Maximum length in bytes of a framed MAVLink packet
(MAVLINK_MAX_PACKET_LEN = 255 payload bytes + 8 framing bytes). -/
def MAVLINK_MAX_PACKET_LEN : Nat := 263

/-- MAVLink v1.0 frame start marker (MAVLINK_STX). -/
def MAVLINK_STX : Nat := 254

/-- One decoded MAVLink message (mavlink_message_t restricted to the fields
the pipeline reads; `mavlink_version` is the protocol-version field obtained
by decoding the heartbeat payload). -/
structure Message where
  sysid : Nat
  compid : Nat
  msgid : Nat
  seq : Nat
  mavlink_version : Nat
  payload : List Nat
deriving DecidableEq

/-- Discriminates the user-visible warning notifications
(`protocolStatusMessage` emissions) of the source. -/
inductive Warning
  | loggingFailed
  | logOpenFailed
  | systemIdConflict
  | versionMismatch
deriving DecidableEq

/-- Observable emissions of the protocol object.  `createdUAS` records the
call into the registry collaborator that creates the vehicle object, so that
ordering between creation and dispatch can be stated on the trace. -/
inductive Event
  | protocolStatusMessage (w : Warning)
  | receiveLossChanged (sysid : Nat) (receiveLoss : ℚ)
  | messageReceived (sysid : Nat)
  | createdUAS (sysid : Nat)
  | loggingChanged (enabled : Bool)
deriving DecidableEq

/-- State of the MAVLinkProtocol object.  `lastIndex s c = none` corresponds
to the sentinel entry -1 of the source's table; `registry` is the external
vehicle registry viewed through its interface (the set of system ids having
a vehicle object). -/
structure ProtocolState where
  lastIndex : Nat → Nat → Option Nat
  totalReceiveCounter : Nat
  totalLossCounter : Nat
  currReceiveCounter : Nat
  currLossCounter : Nat
  versionMismatchIgnore : Bool
  m_enable_version_check : Bool
  m_loggingEnabled : Bool
  m_logfileExists : Bool
  m_logfileOpen : Bool
  systemId : Nat
  registry : List Nat

/-- State right after the constructor: empty sequence table, zero counters,
latch cleared, version check on, logging off, default system id 255. -/
def initState : ProtocolState where
  lastIndex := fun _ _ => none
  totalReceiveCounter := 0
  totalLossCounter := 0
  currReceiveCounter := 0
  currLossCounter := 0
  versionMismatchIgnore := false
  m_enable_version_check := true
  m_loggingEnabled := false
  m_logfileExists := false
  m_logfileOpen := false
  systemId := 255
  registry := []

/-- Pointwise update of the `lastIndex` table at one (sysid, compid) cell. -/
def updIdx (f : Nat → Nat → Option Nat) (s c v : Nat) : Nat → Nat → Option Nat :=
  fun x y => if x = s ∧ y = c then some v else f x y

/-- One wrapping increment of a sequence cell, exactly as written in the
source: if the value is 255 it becomes 0, otherwise it is incremented. -/
def inc255 (n : Nat) : Nat := if n = 255 then 0 else n + 1

/-- The reconciliation while-loop of `receiveBytes`: starting from `last`,
step the cursor with `inc255` until it equals `seq` or the fuel (the
`safeguard < 255` bound) runs out; returns the final cursor and the number
of loss-counting steps taken. -/
def seqAdvance : Nat → Nat → Nat → Nat × Nat
  | last, _, 0 => (last, 0)
  | last, seq, fuel + 1 =>
    if last = seq then (last, 0)
    else
      let r := seqAdvance (inc255 last) seq fuel
      (r.1, r.2 + 1)

/-- Non-first observation of a sequence number: the source first applies one
wrapping increment to the stored value and then runs the bounded loop with
safeguard limit 255.  Returns (new stored value, losses counted). -/
def observePair (last seq : Nat) : Nat × Nat :=
  seqAdvance (inc255 last) seq 255

/-- Counting and loss-reporting block of `receiveBytes` (lines 236-295):
increments the lifetime and windowed receive counters, reconciles the
sequence table entry for (sysid, compid), and, when a loss was recorded in
this call or the lifetime receive counter is a multiple of 64, emits the
windowed loss ratio and resets the windowed counters. -/
def trackAndReport (st : ProtocolState) (sysid compid seq : Nat) :
    ProtocolState × List Event :=
  let lastLoss := st.totalLossCounter
  let st1 : ProtocolState :=
    match st.lastIndex sysid compid with
    | none =>
      { st with
        totalReceiveCounter := st.totalReceiveCounter + 1
        currReceiveCounter := st.currReceiveCounter + 1
        lastIndex := updIdx st.lastIndex sysid compid seq }
    | some last =>
      let r := observePair last seq
      { st with
        totalReceiveCounter := st.totalReceiveCounter + 1
        currReceiveCounter := st.currReceiveCounter + 1
        totalLossCounter := st.totalLossCounter + r.2
        currLossCounter := st.currLossCounter + r.2
        lastIndex := updIdx st.lastIndex sysid compid r.1 }
  if st1.totalLossCounter ≠ lastLoss ∨ st1.totalReceiveCounter % 64 = 0 then
    let receiveLoss : ℚ :=
      (st1.currLossCounter : ℚ) /
        ((st1.currReceiveCounter : ℚ) + (st1.currLossCounter : ℚ)) * 100
    ({ st1 with currLossCounter := 0, currReceiveCounter := 0 },
     [Event.receiveLossChanged sysid receiveLoss])
  else
    (st1, [])

/-- MAVLinkProtocol::enableLogging.  `openOk` stands for the result of the
QFile::open call; disabling closes and deletes the file object.  The final
unconditional assignment of `enabled` to the logging flag reproduces line
425 of the source. -/
def enableLogging (openOk : Bool) (enabled : Bool) (st : ProtocolState) :
    ProtocolState × List Event :=
  let changed : Bool := enabled != st.m_loggingEnabled
  if enabled then
    let stA :=
      if st.m_logfileExists ∧ st.m_logfileOpen then
        { st with m_logfileOpen := false }
      else st
    let stB :=
      if stA.m_logfileExists ∧ openOk = false then
        { stA with m_loggingEnabled := false }
      else if stA.m_logfileExists then
        { stA with m_logfileOpen := true }
      else stA
    let evs : List Event :=
      if stA.m_logfileExists ∧ openOk = false then
        [Event.protocolStatusMessage Warning.logOpenFailed]
      else []
    let stC := { stB with m_loggingEnabled := enabled }
    (stC, evs ++ if changed then [Event.loggingChanged enabled] else [])
  else
    let stA :=
      if st.m_logfileExists then
        { st with m_logfileOpen := false, m_logfileExists := false }
      else st
    let stC := { stA with m_loggingEnabled := enabled }
    (stC, if changed then [Event.loggingChanged enabled] else [])

/-- Logging block at the head of the per-message body of `receiveBytes`
(lines 167-183): when logging is enabled and a logfile object exists, the
record is written; `writeOk` stands for the short-write check.  On failure
the source emits the logging-failed warning and calls enableLogging(false). -/
def logStage (writeOk : Bool) (st : ProtocolState) : ProtocolState × List Event :=
  if st.m_loggingEnabled = true ∧ st.m_logfileExists = true ∧ writeOk = false then
    let el := enableLogging true false st
    (el.1, Event.protocolStatusMessage Warning.loggingFailed :: el.2)
  else (st, [])

/-- Body of `receiveBytes` for one successfully decoded message (the
decodeState == 1 branch, lines 165-301): logging, registry lookup, heartbeat
admission with system-id-conflict warning and protocol version gate, then
counting and dispatch when a vehicle object exists. -/
def processMessage (writeOk : Bool) (st : ProtocolState) (m : Message) :
    ProtocolState × List Event :=
  let lg := logStage writeOk st
  let st0 := lg.1
  let uasFound := st0.registry.contains m.sysid
  if uasFound = false ∧ m.msgid = MAVLINK_MSG_ID_HEARTBEAT then
    let evsConflict : List Event :=
      if m.sysid = st0.systemId then
        [Event.protocolStatusMessage Warning.systemIdConflict]
      else []
    if st0.m_enable_version_check = true ∧ m.mavlink_version ≠ MAVLINK_VERSION then
      if st0.versionMismatchIgnore = false then
        ({ st0 with versionMismatchIgnore := true },
         lg.2 ++ evsConflict ++ [Event.protocolStatusMessage Warning.versionMismatch])
      else
        (st0, lg.2 ++ evsConflict)
    else
      let stC := { st0 with registry := m.sysid :: st0.registry }
      let tr := trackAndReport stC m.sysid m.compid m.seq
      (tr.1, lg.2 ++ evsConflict ++ Event.createdUAS m.sysid ::
        (tr.2 ++ [Event.messageReceived m.sysid]))
  else if uasFound = true then
    let tr := trackAndReport st0 m.sysid m.compid m.seq
    (tr.1, lg.2 ++ tr.2 ++ [Event.messageReceived m.sysid])
  else
    (st0, lg.2)

/-- Processing of a whole inbound stream: each element pairs the
write-success oracle for the logging sink with the decoded message. -/
def processAll (st : ProtocolState) : List (Bool × Message) → ProtocolState × List Event
  | [] => (st, [])
  | (wk, m) :: rest =>
    let p := processMessage wk st m
    let q := processAll p.1 rest
    (q.1, p.2 ++ q.2)

/-- Checks, scanning the trace left to right, that every `messageReceived`
names a system id that is in `known`, where `known` starts as the initial
registry contents and grows at each `createdUAS` event. -/
def createdBeforeOk (known : List Nat) : List Event → Bool
  | [] => true
  | Event.messageReceived s :: rest => known.contains s && createdBeforeOk known rest
  | Event.createdUAS s :: rest => createdBeforeOk (s :: known) rest
  | _ :: rest => createdBeforeOk known rest

/-- The set of system ids known after a trace: the initial ones plus every
`createdUAS` occurrence. -/
def knownAfter (known : List Nat) : List Event → List Nat
  | [] => known
  | Event.createdUAS s :: rest => knownAfter (s :: known) rest
  | _ :: rest => knownAfter known rest

/-- True of events that are neither a creation nor a dispatch. -/
def Event.isNeutral : Event → Bool
  | Event.createdUAS _ => false
  | Event.messageReceived _ => false
  | _ => true

/-- True of events that are plain status or configuration notifications
(warnings and logging-enabled changes). -/
def Event.isStatus : Event → Bool
  | Event.protocolStatusMessage _ => true
  | Event.loggingChanged _ => true
  | _ => false

/-- Number of version-mismatch warning emissions in a trace. -/
def countVM : List Event → Nat
  | [] => 0
  | Event.protocolStatusMessage Warning.versionMismatch :: rest => countVM rest + 1
  | _ :: rest => countVM rest

/-- Little-endian byte serialization of the 64-bit receive timestamp
(the memcpy of the quint64 groundTimeUsecs value). -/
def quint64LEBytes (t : Nat) : List Nat :=
  [t % 256, t / 2 ^ 8 % 256, t / 2 ^ 16 % 256, t / 2 ^ 24 % 256,
   t / 2 ^ 32 % 256, t / 2 ^ 40 % 256, t / 2 ^ 48 % 256, t / 2 ^ 56 % 256]

/-- One step of the X.25 checksum accumulation used by the MAVLink framing
(crc_accumulate of the generated headers). -/
def crcAccumulate (data crc : Nat) : Nat :=
  let tmp := (data ^^^ (crc % 256)) % 256
  let tmp2 := (tmp ^^^ ((tmp <<< 4) % 256)) % 256
  ((crc / 256) ^^^ ((tmp2 <<< 8) % 65536) ^^^ ((tmp2 <<< 3) % 65536) ^^^
    (tmp2 >>> 4)) % 65536

/-- X.25 checksum of a byte list, starting from the 0xffff seed. -/
def crcCalculate (bytes : List Nat) : Nat :=
  bytes.foldl (fun c b => crcAccumulate b c) 0xffff

/-- mavlink_msg_to_send_buffer: start marker, length, sequence, system id,
component id, message id, payload, then the two checksum bytes (low byte
first); `crcExtra` is the per-message-id checksum seed byte of the dialect. -/
def mavlink_msg_to_send_buffer (crcExtra : Nat) (m : Message) : List Nat :=
  let core := [m.payload.length % 256, m.seq % 256, m.sysid % 256,
               m.compid % 256, m.msgid % 256] ++ m.payload
  let crc := crcCalculate (core ++ [crcExtra])
  MAVLINK_STX :: core ++ [crc % 256, crc / 256]

/-- One log record as written by the logging block of `receiveBytes`: the
whole fixed-size buffer of MAVLINK_MAX_PACKET_LEN + 8 bytes is written, so
the record is the 8 timestamp bytes, the framed message, and then the
residual buffer contents (`junk`, the uninitialized stack bytes) up to the
fixed length. -/
def logRecord (junk : Nat → Nat) (crcExtra : Nat) (t : Nat) (m : Message) : List Nat :=
  let frame := mavlink_msg_to_send_buffer crcExtra m
  quint64LEBytes t ++ frame ++
    (List.range (MAVLINK_MAX_PACKET_LEN - frame.length)).map junk

/-- Concrete state used by witnesses: one vehicle (system id 7) registered and
the sequence cell (7, 1) holding 10. -/
def tableState : ProtocolState :=
  { initState with
    registry := [7]
    lastIndex := fun s c => if s = 7 ∧ c = 1 then some 10 else none }

/-- Containment of one id list in another, via `List.contains`. -/
def listSub (a b : List Nat) : Prop :=
  ∀ x, a.contains x = true → b.contains x = true

/-- Message used in witnesses: heartbeat from unknown system 9 declaring
protocol version 2 while the supported version is 3. -/
def mismatchMsg : Message :=
  { sysid := 9, compid := 1, msgid := 0, seq := 0, mavlink_version := 2, payload := [] }

/-- State with logging enabled and a logfile object present. -/
def logOnState : ProtocolState :=
  { initState with m_loggingEnabled := true, m_logfileExists := true }

/-- Unknown-sender non-heartbeat message used in the C9 counterexample. -/
def strayMsg : Message :=
  { sysid := 5, compid := 1, msgid := 1, seq := 0, mavlink_version := 3, payload := [] }

/-- State whose logfile object exists but is not open; used to evaluate
`enableLogging` on the failed-open path. -/
def fileSetState : ProtocolState := { initState with m_logfileExists := true }

/-- Heartbeat message with a 3-byte payload, used to exhibit the fixed-width
log record. -/
def hbPayloadMsg : Message :=
  { sysid := 7, compid := 1, msgid := 0, seq := 0, mavlink_version := 3,
    payload := [1, 2, 3] }

/-! Helper lemmas about the bounded sequence-reconciliation loop. -/

theorem inc255_lt (n : Nat) (h : n < 256) : inc255 n < 256 := by
  unfold inc255; split <;> omega

theorem seqAdvance_eq : ∀ (fuel pre q : Nat), pre < 256 → q < 256 →
    (q + 256 - pre) % 256 ≤ fuel →
    seqAdvance pre q fuel = (q, (q + 256 - pre) % 256) := by
  intro fuel
  induction fuel with
  | zero =>
    intro pre q hp hq hd
    have hpq : pre = q := by omega
    subst hpq
    simp only [seqAdvance, Prod.mk.injEq, true_and]
    omega
  | succ n ih =>
    intro pre q hp hq hd
    by_cases hpq : pre = q
    · subst hpq
      simp only [seqAdvance, if_pos rfl, if_true, Prod.mk.injEq, true_and]
      omega
    · have hstep : (q + 256 - inc255 pre) % 256 + 1 = (q + 256 - pre) % 256 := by
        unfold inc255; split <;> omega
      have hlt : inc255 pre < 256 := inc255_lt pre hp
      have hle : (q + 256 - inc255 pre) % 256 ≤ n := by omega
      simp only [seqAdvance, if_neg hpq, ih (inc255 pre) q hlt hq hle, Prod.mk.injEq,
        true_and]
      omega

theorem observePair_eq (last q : Nat) (hl : last < 256) (hq : q < 256) :
    observePair last q = (q, (q + 256 - (last + 1)) % 256) := by
  unfold observePair
  have h1 : inc255 last < 256 := inc255_lt last hl
  have h2 : (q + 256 - inc255 last) % 256 ≤ 255 := by omega
  rw [seqAdvance_eq 255 (inc255 last) q h1 hq h2]
  refine Prod.ext rfl ?_
  show (q + 256 - inc255 last) % 256 = (q + 256 - (last + 1)) % 256
  unfold inc255
  split <;> omega

theorem observePair_losses_le (last q : Nat) : (observePair last q).2 ≤ 255 := by
  unfold observePair
  generalize inc255 last = pre
  have : ∀ fuel pre, (seqAdvance pre q fuel).2 ≤ fuel := by
    intro fuel
    induction fuel with
    | zero => intro pre; simp [seqAdvance]
    | succ n ih =>
      intro pre
      simp only [seqAdvance]
      split
      · simp
      · have := ih (inc255 pre)
        simp
        omega
  exact this 255 pre

/-! Characterizations of the counting and loss-reporting block. -/

theorem trackAndReport_preserves (st : ProtocolState) (s c q : Nat) :
    (trackAndReport st s c q).1.versionMismatchIgnore = st.versionMismatchIgnore ∧
    (trackAndReport st s c q).1.m_enable_version_check = st.m_enable_version_check ∧
    (trackAndReport st s c q).1.m_loggingEnabled = st.m_loggingEnabled ∧
    (trackAndReport st s c q).1.m_logfileExists = st.m_logfileExists ∧
    (trackAndReport st s c q).1.m_logfileOpen = st.m_logfileOpen ∧
    (trackAndReport st s c q).1.systemId = st.systemId ∧
    (trackAndReport st s c q).1.registry = st.registry := by
  unfold trackAndReport
  cases hL : st.lastIndex s c <;> simp only [hL] <;> split <;> simp

theorem trackAndReport_shape (st : ProtocolState) (s c q : Nat) :
    (trackAndReport st s c q).2 = [] ∨
    ∃ r, (trackAndReport st s c q).2 = [Event.receiveLossChanged s r] := by
  unfold trackAndReport
  cases hL : st.lastIndex s c <;> simp only [hL] <;> split <;> simp

theorem trackAndReport_countVM (st : ProtocolState) (s c q : Nat) :
    countVM (trackAndReport st s c q).2 = 0 := by
  rcases trackAndReport_shape st s c q with h | ⟨r, h⟩ <;> rw [h] <;> rfl

theorem trackAndReport_neutral (st : ProtocolState) (s c q : Nat) :
    ∀ e ∈ (trackAndReport st s c q).2, e.isNeutral = true := by
  rcases trackAndReport_shape st s c q with h | ⟨r, h⟩ <;> rw [h] <;> simp [Event.isNeutral]

/-- C2: for a (system id, component id) pair whose recorded last-observed
sequence is `last`, observing `q` records exactly ((q - last - 1) mod 256)
losses on the lifetime loss counter and sets the pair's recorded baseline
to `q`. -/
theorem c2_sequence_loss_accounting (st : ProtocolState) (s c q last : Nat)
    (hidx : st.lastIndex s c = some last) (hl : last < 256) (hq : q < 256) :
    (trackAndReport st s c q).1.lastIndex s c = some q ∧
    (trackAndReport st s c q).1.totalLossCounter =
      st.totalLossCounter + (((q : ℤ) - (last : ℤ) - 1) % 256).toNat := by
  have hobs := observePair_eq last q hl hq
  have hform : (q + 256 - (last + 1)) % 256 = (((q : ℤ) - (last : ℤ) - 1) % 256).toNat := by
    omega
  unfold trackAndReport
  simp only [hidx, hobs]
  split <;> simp [updIdx] <;> omega

/-- Witness for C2: with baseline 10 at cell (7,1), observing 15 records
exactly 4 losses and moves the baseline to 15. -/
theorem c2_sequence_loss_accounting_witness :
    tableState.lastIndex 7 1 = some 10 ∧ 10 < 256 ∧ 15 < 256 ∧
    ((trackAndReport tableState 7 1 15).1.lastIndex 7 1 = some 15 ∧
     (trackAndReport tableState 7 1 15).1.totalLossCounter =
       tableState.totalLossCounter + (((15 : ℤ) - (10 : ℤ) - 1) % 256).toNat) :=
  ⟨by decide, by decide, by decide,
   c2_sequence_loss_accounting tableState 7 1 15 10 (by decide) (by decide) (by decide)⟩

/-- C6: one observe step performs at most 255 loss-counting steps (the
lifetime loss counter grows by at most 255) and always terminates with the
pair's recorded baseline equal to the observed sequence value. -/
theorem c6_bounded_advance (st : ProtocolState) (s c q : Nat) (hq : q < 256)
    (hwf : ∀ last, st.lastIndex s c = some last → last < 256) :
    (trackAndReport st s c q).1.totalLossCounter - st.totalLossCounter ≤ 255 ∧
    (trackAndReport st s c q).1.lastIndex s c = some q := by
  cases hidx : st.lastIndex s c with
  | none =>
    unfold trackAndReport
    simp only [hidx]
    split <;> simp [updIdx]
  | some last =>
    have hl := hwf last hidx
    have hobs := observePair_eq last q hl hq
    have hle : (q + 256 - (last + 1)) % 256 ≤ 255 := by omega
    unfold trackAndReport
    simp only [hidx, hobs]
    split <;> simp [updIdx] <;> omega

/-- Witness for C6 at the concrete cell (7,1) with baseline 10, observing 15. -/
theorem c6_bounded_advance_witness :
    15 < 256 ∧
    ((trackAndReport tableState 7 1 15).1.totalLossCounter -
       tableState.totalLossCounter ≤ 255 ∧
     (trackAndReport tableState 7 1 15).1.lastIndex 7 1 = some 15) :=
  ⟨by decide,
   c6_bounded_advance tableState 7 1 15 (by decide)
     (by intro last h; simp [tableState, initState] at h; omega)⟩

/-- C3: after the counters are updated for a counted message, a loss-ratio
notification is emitted if and only if a loss was recorded during this call
or the lifetime received counter is a multiple of 64; the reported ratio is
windowed_lost / (windowed_lost + windowed_received) * 100 over the window
since the last report, both windowed counters are reset to zero right after
a report, and the lifetime counters are never reset. -/
theorem c3_loss_ratio_report (st : ProtocolState) (s c q : Nat) :
    (trackAndReport st s c q).1.totalReceiveCounter = st.totalReceiveCounter + 1 ∧
    st.totalLossCounter ≤ (trackAndReport st s c q).1.totalLossCounter ∧
    ((trackAndReport st s c q).2 ≠ [] ↔
      ((trackAndReport st s c q).1.totalLossCounter ≠ st.totalLossCounter ∨
       (st.totalReceiveCounter + 1) % 64 = 0)) ∧
    (((trackAndReport st s c q).1.totalLossCounter ≠ st.totalLossCounter ∨
       (st.totalReceiveCounter + 1) % 64 = 0) →
      ((trackAndReport st s c q).2 =
        [Event.receiveLossChanged s
          (((st.currLossCounter +
              ((trackAndReport st s c q).1.totalLossCounter - st.totalLossCounter) : Nat) : ℚ) /
            (((st.currReceiveCounter + 1 : Nat) : ℚ) +
             ((st.currLossCounter +
               ((trackAndReport st s c q).1.totalLossCounter - st.totalLossCounter) : Nat) : ℚ)) *
            100)] ∧
       (trackAndReport st s c q).1.currLossCounter = 0 ∧
       (trackAndReport st s c q).1.currReceiveCounter = 0)) ∧
    (¬((trackAndReport st s c q).1.totalLossCounter ≠ st.totalLossCounter ∨
       (st.totalReceiveCounter + 1) % 64 = 0) →
      ((trackAndReport st s c q).2 = [] ∧
       (trackAndReport st s c q).1.currLossCounter =
         st.currLossCounter +
           ((trackAndReport st s c q).1.totalLossCounter - st.totalLossCounter) ∧
       (trackAndReport st s c q).1.currReceiveCounter = st.currReceiveCounter + 1)) := by
  cases hidx : st.lastIndex s c with
  | none =>
    unfold trackAndReport
    simp only [hidx]
    split <;> rename_i hrep <;> simp_all
  | some last =>
    unfold trackAndReport
    simp only [hidx]
    split <;> rename_i hrep <;> simp_all [Nat.add_sub_cancel_left]

/-- Witness for C3: at `tableState` the observation of sequence 15 at (7,1)
records losses, so the report fires, reads ratio 4/(1+4)*100, and resets the
windowed counters. -/
theorem c3_loss_ratio_report_witness :
    ((trackAndReport tableState 7 1 15).1.totalLossCounter ≠
       tableState.totalLossCounter ∨
     (tableState.totalReceiveCounter + 1) % 64 = 0) ∧
    ((trackAndReport tableState 7 1 15).2 =
      [Event.receiveLossChanged 7
        (((tableState.currLossCounter +
            ((trackAndReport tableState 7 1 15).1.totalLossCounter -
              tableState.totalLossCounter) : Nat) : ℚ) /
          (((tableState.currReceiveCounter + 1 : Nat) : ℚ) +
           ((tableState.currLossCounter +
             ((trackAndReport tableState 7 1 15).1.totalLossCounter -
               tableState.totalLossCounter) : Nat) : ℚ)) *
          100)] ∧
     (trackAndReport tableState 7 1 15).1.currLossCounter = 0 ∧
     (trackAndReport tableState 7 1 15).1.currReceiveCounter = 0) :=
  ⟨by decide, (c3_loss_ratio_report tableState 7 1 15).2.2.2.1 (by decide)⟩

/-- C10: whenever a loss-ratio event is emitted, the denominator of the
reported ratio is the sum of the windowed received and windowed lost
counters at computation time; the windowed received part is the previous
windowed received counter plus one, so the denominator is at least 1 and
the division is never by zero. -/
theorem c10_report_denominator_positive (st : ProtocolState) (s c q x : Nat) (r : ℚ)
    (hmem : Event.receiveLossChanged x r ∈ (trackAndReport st s c q).2) :
    ∃ lost received : Nat,
      received = st.currReceiveCounter + 1 ∧
      1 ≤ received + lost ∧
      ((received : ℚ) + (lost : ℚ)) ≠ 0 ∧
      r = (lost : ℚ) / ((received : ℚ) + (lost : ℚ)) * 100 := by
  have hden : ∀ lost received : Nat, received = st.currReceiveCounter + 1 →
      ((received : ℚ) + (lost : ℚ)) ≠ 0 := by
    intro lost received hrc
    have h1 : ((received : ℚ) + (lost : ℚ)) = ((received + lost : Nat) : ℚ) := by
      push_cast; ring
    rw [h1]
    exact Nat.cast_ne_zero.mpr (by omega)
  cases hidx : st.lastIndex s c with
  | none =>
    unfold trackAndReport at hmem
    simp only [hidx] at hmem
    revert hmem
    split <;> rename_i hrep <;> intro hmem <;> simp at hmem
    refine ⟨st.currLossCounter, st.currReceiveCounter + 1, rfl, by omega,
      hden _ _ rfl, ?_⟩
    rw [hmem.2]
    push_cast
    ring
  | some last =>
    unfold trackAndReport at hmem
    simp only [hidx] at hmem
    revert hmem
    split <;> rename_i hrep <;> intro hmem <;> simp at hmem
    refine ⟨st.currLossCounter + (observePair last q).2, st.currReceiveCounter + 1,
      rfl, by omega, hden _ _ rfl, ?_⟩
    rw [hmem.2]
    push_cast
    ring

/-- Witness for C10: the report fired at `tableState` carries the windowed
ratio 4 / (1 + 4) * 100, whose denominator is positive. -/
theorem c10_report_denominator_positive_witness :
    Event.receiveLossChanged 7 ((4 : ℚ) / (1 + 4) * 100) ∈
      (trackAndReport tableState 7 1 15).2 ∧
    (∃ lost received : Nat,
      received = tableState.currReceiveCounter + 1 ∧
      1 ≤ received + lost ∧
      ((received : ℚ) + (lost : ℚ)) ≠ 0 ∧
      ((4 : ℚ) / (1 + 4) * 100) =
        (lost : ℚ) / ((received : ℚ) + (lost : ℚ)) * 100) := by
  have hobs : observePair 10 15 = (15, 4) := rfl
  have hmem : Event.receiveLossChanged 7 ((4 : ℚ) / (1 + 4) * 100) ∈
      (trackAndReport tableState 7 1 15).2 := by
    simp [trackAndReport, tableState, initState, hobs]
  exact ⟨hmem, c10_report_denominator_positive tableState 7 1 15 7 _ hmem⟩

/-! Lemmas about the logging stage of the per-message body. -/

theorem logStage_fields (wk : Bool) (st : ProtocolState) :
    (logStage wk st).1.lastIndex = st.lastIndex ∧
    (logStage wk st).1.totalReceiveCounter = st.totalReceiveCounter ∧
    (logStage wk st).1.totalLossCounter = st.totalLossCounter ∧
    (logStage wk st).1.currReceiveCounter = st.currReceiveCounter ∧
    (logStage wk st).1.currLossCounter = st.currLossCounter ∧
    (logStage wk st).1.versionMismatchIgnore = st.versionMismatchIgnore ∧
    (logStage wk st).1.m_enable_version_check = st.m_enable_version_check ∧
    (logStage wk st).1.systemId = st.systemId ∧
    (logStage wk st).1.registry = st.registry := by
  unfold logStage enableLogging
  split
  · simp
    split <;> simp
  · simp

theorem logStage_shape (wk : Bool) (st : ProtocolState) :
    logStage wk st = (st, []) ∨
    (logStage wk st).2 =
      [Event.protocolStatusMessage Warning.loggingFailed, Event.loggingChanged false] := by
  unfold logStage
  split
  · rename_i h
    right
    simp [enableLogging, h.1]
  · left; rfl

theorem logStage_noop (wk : Bool) (st : ProtocolState)
    (h : ¬(st.m_loggingEnabled = true ∧ st.m_logfileExists = true ∧ wk = false)) :
    logStage wk st = (st, []) := by
  unfold logStage
  split
  · rename_i h2; exact absurd h2 h
  · rfl

theorem logStage_countVM (wk : Bool) (st : ProtocolState) :
    countVM (logStage wk st).2 = 0 := by
  rcases logStage_shape wk st with h | h
  · rw [h]; rfl
  · rw [h]; rfl

theorem logStage_neutral (wk : Bool) (st : ProtocolState) :
    ∀ e ∈ (logStage wk st).2, e.isNeutral = true := by
  rcases logStage_shape wk st with h | h <;> rw [h] <;> simp [Event.isNeutral]

/-! Lemmas about the dispatch-ordering check on traces. -/

theorem listSub_refl (a : List Nat) : listSub a a := fun _ h => h

theorem listSub_cons (s : Nat) (a b : List Nat) (h : listSub a b) :
    listSub (s :: a) (s :: b) := by
  intro x hx
  simp only [List.contains_cons] at hx ⊢
  rcases Bool.or_eq_true_iff.mp hx with h1 | h2
  · exact Bool.or_eq_true_iff.mpr (Or.inl h1)
  · exact Bool.or_eq_true_iff.mpr (Or.inr (h x h2))

theorem listSub_cons_self (s : Nat) (a : List Nat) : listSub a (s :: a) := by
  intro x hx
  simp only [List.contains_cons]
  exact Bool.or_eq_true_iff.mpr (Or.inr hx)

theorem knownAfter_append (xs ys : List Event) : ∀ known,
    knownAfter known (xs ++ ys) = knownAfter (knownAfter known xs) ys := by
  induction xs with
  | nil => intro known; rfl
  | cons e rest ih =>
    intro known
    cases e <;> simp only [List.cons_append, List.append_eq, knownAfter] <;> exact ih _

theorem createdBeforeOk_append (xs ys : List Event) : ∀ known,
    createdBeforeOk known (xs ++ ys) =
      (createdBeforeOk known xs && createdBeforeOk (knownAfter known xs) ys) := by
  induction xs with
  | nil => intro known; rfl
  | cons e rest ih =>
    intro known
    cases e <;>
      simp only [List.cons_append, List.append_eq, createdBeforeOk, knownAfter, ih,
        Bool.and_assoc]

theorem createdBeforeOk_neutral (evs : List Event) : ∀ known,
    (∀ e ∈ evs, e.isNeutral = true) →
    createdBeforeOk known evs = true ∧ knownAfter known evs = known := by
  induction evs with
  | nil => intro known _; exact ⟨rfl, rfl⟩
  | cons e rest ih =>
    intro known h
    have he : e.isNeutral = true := h e (List.mem_cons_self e rest)
    have hr : ∀ x ∈ rest, x.isNeutral = true := fun x hx => h x (List.mem_cons_of_mem e hx)
    cases e with
    | messageReceived s => simp [Event.isNeutral] at he
    | createdUAS s => simp [Event.isNeutral] at he
    | protocolStatusMessage w =>
      simpa only [createdBeforeOk, knownAfter] using ih known hr
    | receiveLossChanged s r =>
      simpa only [createdBeforeOk, knownAfter] using ih known hr
    | loggingChanged b =>
      simpa only [createdBeforeOk, knownAfter] using ih known hr

theorem createdBeforeOk_mono (evs : List Event) : ∀ k1 k2, listSub k1 k2 →
    (createdBeforeOk k1 evs = true → createdBeforeOk k2 evs = true) ∧
    listSub (knownAfter k1 evs) (knownAfter k2 evs) := by
  induction evs with
  | nil => intro k1 k2 h; exact ⟨fun _ => rfl, h⟩
  | cons e rest ih =>
    intro k1 k2 h
    cases e with
    | messageReceived s =>
      refine ⟨?_, (ih k1 k2 h).2⟩
      simp only [createdBeforeOk, Bool.and_eq_true]
      rintro ⟨h1, h2⟩
      exact ⟨h s h1, (ih k1 k2 h).1 h2⟩
    | createdUAS s =>
      have hs := listSub_cons s k1 k2 h
      exact ⟨fun hx => (ih (s :: k1) (s :: k2) hs).1 hx, (ih (s :: k1) (s :: k2) hs).2⟩
    | protocolStatusMessage w => exact ih k1 k2 h
    | receiveLossChanged s r => exact ih k1 k2 h
    | loggingChanged b => exact ih k1 k2 h

/-! Branch characterizations of the per-message body. -/

theorem processMessage_eq_mismatchFirst (wk : Bool) (st : ProtocolState) (m : Message)
    (h1 : (logStage wk st).1.registry.contains m.sysid = false)
    (h2 : m.msgid = MAVLINK_MSG_ID_HEARTBEAT)
    (h3 : (logStage wk st).1.m_enable_version_check = true)
    (h4 : m.mavlink_version ≠ MAVLINK_VERSION)
    (h5 : (logStage wk st).1.versionMismatchIgnore = false) :
    processMessage wk st m =
      ({ (logStage wk st).1 with versionMismatchIgnore := true },
       (logStage wk st).2 ++
         (if m.sysid = (logStage wk st).1.systemId then
            [Event.protocolStatusMessage Warning.systemIdConflict] else []) ++
         [Event.protocolStatusMessage Warning.versionMismatch]) := by
  unfold processMessage
  simp only [h1, h2, h3, h4, h5, eq_self_iff_true, true_and, and_true,
    if_true, if_false, ite_true, ite_false, Bool.true_eq_false, Bool.false_eq_true,
    not_false_iff, not_false_eq_true, ne_eq, and_false, false_and, not_true, false_or]

theorem processMessage_eq_mismatchLater (wk : Bool) (st : ProtocolState) (m : Message)
    (h1 : (logStage wk st).1.registry.contains m.sysid = false)
    (h2 : m.msgid = MAVLINK_MSG_ID_HEARTBEAT)
    (h3 : (logStage wk st).1.m_enable_version_check = true)
    (h4 : m.mavlink_version ≠ MAVLINK_VERSION)
    (h5 : (logStage wk st).1.versionMismatchIgnore = true) :
    processMessage wk st m =
      ((logStage wk st).1,
       (logStage wk st).2 ++
         (if m.sysid = (logStage wk st).1.systemId then
            [Event.protocolStatusMessage Warning.systemIdConflict] else [])) := by
  unfold processMessage
  simp only [h1, h2, h3, h4, h5, eq_self_iff_true, true_and, and_true,
    if_true, if_false, ite_true, ite_false, Bool.true_eq_false, Bool.false_eq_true,
    not_false_iff, not_false_eq_true, ne_eq, and_false, false_and, not_true, false_or]

theorem processMessage_eq_create (wk : Bool) (st : ProtocolState) (m : Message)
    (h1 : (logStage wk st).1.registry.contains m.sysid = false)
    (h2 : m.msgid = MAVLINK_MSG_ID_HEARTBEAT)
    (h3 : ¬((logStage wk st).1.m_enable_version_check = true ∧
            m.mavlink_version ≠ MAVLINK_VERSION)) :
    processMessage wk st m =
      ((trackAndReport
          { (logStage wk st).1 with registry := m.sysid :: (logStage wk st).1.registry }
          m.sysid m.compid m.seq).1,
       (logStage wk st).2 ++
         (if m.sysid = (logStage wk st).1.systemId then
            [Event.protocolStatusMessage Warning.systemIdConflict] else []) ++
         Event.createdUAS m.sysid ::
           ((trackAndReport
               { (logStage wk st).1 with
                 registry := m.sysid :: (logStage wk st).1.registry }
               m.sysid m.compid m.seq).2 ++
            [Event.messageReceived m.sysid])) := by
  unfold processMessage
  simp only [h1, h2, h3, eq_self_iff_true, true_and, and_true, if_true, if_false,
    ite_true, ite_false, Bool.true_eq_false, Bool.false_eq_true, not_false_iff,
    not_false_eq_true, ne_eq, and_false, false_and, not_true, false_or]

theorem processMessage_eq_known (wk : Bool) (st : ProtocolState) (m : Message)
    (h1 : (logStage wk st).1.registry.contains m.sysid = true) :
    processMessage wk st m =
      ((trackAndReport (logStage wk st).1 m.sysid m.compid m.seq).1,
       (logStage wk st).2 ++
         (trackAndReport (logStage wk st).1 m.sysid m.compid m.seq).2 ++
         [Event.messageReceived m.sysid]) := by
  unfold processMessage
  simp only [h1, eq_self_iff_true, true_and, and_true, if_true, if_false, ite_true,
    ite_false, Bool.true_eq_false, Bool.false_eq_true, not_false_iff, and_false,
    false_and, not_true, false_or]

theorem processMessage_eq_drop (wk : Bool) (st : ProtocolState) (m : Message)
    (h1 : (logStage wk st).1.registry.contains m.sysid = false)
    (h2 : m.msgid ≠ MAVLINK_MSG_ID_HEARTBEAT) :
    processMessage wk st m = ((logStage wk st).1, (logStage wk st).2) := by
  unfold processMessage
  simp only [h1, h2, eq_self_iff_true, true_and, and_true, if_true, if_false,
    ite_true, ite_false, Bool.true_eq_false, Bool.false_eq_true, not_false_iff,
    not_false_eq_true, ne_eq, and_false, false_and, not_true, false_or]

/-! Per-step and whole-run dispatch-ordering lemmas. -/

theorem processMessage_cb (wk : Bool) (st : ProtocolState) (m : Message) :
    ∀ K, listSub st.registry K →
    createdBeforeOk K (processMessage wk st m).2 = true ∧
    listSub (processMessage wk st m).1.registry
      (knownAfter K (processMessage wk st m).2) := by
  intro K hK
  obtain ⟨hli, htr, htl, hcr, hcl, hvmi, hevc, hsid, hreg⟩ := logStage_fields wk st
  have hKs : listSub (logStage wk st).1.registry K := by rw [hreg]; exact hK
  have hlgN := logStage_neutral wk st
  have hconfN : ∀ e ∈ (if m.sysid = (logStage wk st).1.systemId then
      [Event.protocolStatusMessage Warning.systemIdConflict] else []),
      e.isNeutral = true := by
    split <;> simp [Event.isNeutral]
  by_cases h1 : (logStage wk st).1.registry.contains m.sysid = true
  · rw [processMessage_eq_known wk st m h1]
    have htrP := trackAndReport_preserves (logStage wk st).1 m.sysid m.compid m.seq
    have htrN := trackAndReport_neutral (logStage wk st).1 m.sysid m.compid m.seq
    have hA := createdBeforeOk_neutral (logStage wk st).2 K hlgN
    have hB := createdBeforeOk_neutral
      (trackAndReport (logStage wk st).1 m.sysid m.compid m.seq).2 K htrN
    constructor
    · rw [createdBeforeOk_append, createdBeforeOk_append, knownAfter_append,
        hA.1, hA.2, hB.1, hB.2]
      simp only [createdBeforeOk, knownAfter, Bool.true_and, Bool.and_true]
      rw [hKs m.sysid h1]
    · rw [knownAfter_append, knownAfter_append, hA.2, hB.2]
      simp only [knownAfter]
      rw [htrP.2.2.2.2.2.2, hreg]
      exact hK
  · have h1f : (logStage wk st).1.registry.contains m.sysid = false :=
      Bool.not_eq_true _ ▸ (Bool.eq_false_iff.mpr h1)
    by_cases h2 : m.msgid = MAVLINK_MSG_ID_HEARTBEAT
    · by_cases h3 : (logStage wk st).1.m_enable_version_check = true ∧
          m.mavlink_version ≠ MAVLINK_VERSION
      · by_cases h5 : (logStage wk st).1.versionMismatchIgnore = false
        · rw [processMessage_eq_mismatchFirst wk st m h1f h2 h3.1 h3.2 h5]
          have hall : ∀ e ∈ (logStage wk st).2 ++
              (if m.sysid = (logStage wk st).1.systemId then
                [Event.protocolStatusMessage Warning.systemIdConflict] else []) ++
              [Event.protocolStatusMessage Warning.versionMismatch],
              e.isNeutral = true := by
            intro e he
            rcases List.mem_append.mp he with he2 | he3
            · rcases List.mem_append.mp he2 with hl | hc
              · exact hlgN e hl
              · exact hconfN e hc
            · simp only [List.mem_singleton] at he3
              subst he3; rfl
          have hA := createdBeforeOk_neutral _ K hall
          refine ⟨hA.1, ?_⟩
          rw [hA.2]
          simpa only [hreg] using hK
        · have h5t : (logStage wk st).1.versionMismatchIgnore = true := by
            revert h5; cases (logStage wk st).1.versionMismatchIgnore <;> simp
          rw [processMessage_eq_mismatchLater wk st m h1f h2 h3.1 h3.2 h5t]
          have hall : ∀ e ∈ (logStage wk st).2 ++
              (if m.sysid = (logStage wk st).1.systemId then
                [Event.protocolStatusMessage Warning.systemIdConflict] else []),
              e.isNeutral = true := by
            intro e he
            rcases List.mem_append.mp he with hl | hc
            · exact hlgN e hl
            · exact hconfN e hc
          have hA := createdBeforeOk_neutral _ K hall
          refine ⟨hA.1, ?_⟩
          rw [hA.2]
          simpa only [hreg] using hK
      · rw [processMessage_eq_create wk st m h1f h2 h3]
        have htrP := trackAndReport_preserves
          { (logStage wk st).1 with
            registry := m.sysid :: (logStage wk st).1.registry }
          m.sysid m.compid m.seq
        have htrN := trackAndReport_neutral
          { (logStage wk st).1 with
            registry := m.sysid :: (logStage wk st).1.registry }
          m.sysid m.compid m.seq
        have hpre : ∀ e ∈ (logStage wk st).2 ++
            (if m.sysid = (logStage wk st).1.systemId then
              [Event.protocolStatusMessage Warning.systemIdConflict] else []),
            e.isNeutral = true := by
          intro e he
          rcases List.mem_append.mp he with hl | hc
          · exact hlgN e hl
          · exact hconfN e hc
        have hA := createdBeforeOk_neutral _ K hpre
        have hB := createdBeforeOk_neutral
          (trackAndReport
            { (logStage wk st).1 with
              registry := m.sysid :: (logStage wk st).1.registry }
            m.sysid m.compid m.seq).2 (m.sysid :: K) htrN
        constructor
        · rw [createdBeforeOk_append, hA.1, hA.2]
          simp only [createdBeforeOk, Bool.true_and]
          rw [createdBeforeOk_append, hB.1, hB.2]
          simp only [createdBeforeOk, knownAfter, Bool.true_and]
          simp [List.contains_cons]
        · rw [knownAfter_append, hA.2]
          simp only [knownAfter]
          rw [knownAfter_append, hB.2]
          simp only [knownAfter]
          rw [htrP.2.2.2.2.2.2]
          simp only [ProtocolState.registry, hreg]
          exact listSub_cons m.sysid st.registry K hK
    · rw [processMessage_eq_drop wk st m h1f h2]
      have hA := createdBeforeOk_neutral (logStage wk st).2 K hlgN
      refine ⟨hA.1, ?_⟩
      rw [hA.2]
      simpa only [hreg] using hK

theorem processAll_cb : ∀ (inputs : List (Bool × Message)) (st : ProtocolState)
    (K : List Nat), listSub st.registry K →
    createdBeforeOk K (processAll st inputs).2 = true ∧
    listSub (processAll st inputs).1.registry
      (knownAfter K (processAll st inputs).2) := by
  intro inputs
  induction inputs with
  | nil => intro st K hK; exact ⟨rfl, hK⟩
  | cons p rest ih =>
    intro st K hK
    obtain ⟨wk, m⟩ := p
    have hstep := processMessage_cb wk st m K hK
    have hmore := ih (processMessage wk st m).1
      (knownAfter K (processMessage wk st m).2) hstep.2
    constructor
    · show createdBeforeOk K
        ((processMessage wk st m).2 ++
         (processAll (processMessage wk st m).1 rest).2) = true
      rw [createdBeforeOk_append, hstep.1, hmore.1]
      rfl
    · show listSub (processAll (processMessage wk st m).1 rest).1.registry
        (knownAfter K ((processMessage wk st m).2 ++
          (processAll (processMessage wk st m).1 rest).2))
      rw [knownAfter_append]
      exact hmore.2

/-- C1: over any inbound stream, scanning the emitted trace left to right,
every `messageReceived` dispatch names a system id that either already had a
vehicle object in the registry at the start or was the subject of an earlier
`createdUAS` creation in the trace: vehicle creation (or a prior lookup hit)
strictly precedes the first dispatch for that system id. -/
theorem c1_creation_precedes_dispatch (st : ProtocolState)
    (inputs : List (Bool × Message)) :
    createdBeforeOk st.registry (processAll st inputs).2 = true :=
  (processAll_cb inputs st st.registry (listSub_refl st.registry)).1

/-! Version-mismatch warning accounting. -/

theorem countVM_append (xs ys : List Event) :
    countVM (xs ++ ys) = countVM xs + countVM ys := by
  induction xs with
  | nil => simp [countVM]
  | cons e rest ih =>
    cases e with
    | protocolStatusMessage w =>
      cases w <;> simp only [List.cons_append, List.append_eq, countVM, ih] <;> omega
    | receiveLossChanged s r =>
      simpa only [List.cons_append, List.append_eq, countVM] using ih
    | messageReceived s =>
      simpa only [List.cons_append, List.append_eq, countVM] using ih
    | createdUAS s =>
      simpa only [List.cons_append, List.append_eq, countVM] using ih
    | loggingChanged b =>
      simpa only [List.cons_append, List.append_eq, countVM] using ih

theorem countVM_conflict (wk : Bool) (st : ProtocolState) (m : Message) :
    countVM (if m.sysid = (logStage wk st).1.systemId then
      [Event.protocolStatusMessage Warning.systemIdConflict] else []) = 0 := by
  split <;> rfl

theorem countVM_mr (s : Nat) : countVM [Event.messageReceived s] = 0 := rfl

theorem countVM_vmWarn : countVM [Event.protocolStatusMessage Warning.versionMismatch] = 1 := rfl

theorem countVM_created_cons (s : Nat) (rest : List Event) :
    countVM (Event.createdUAS s :: rest) = countVM rest := rfl

theorem processMessage_vm (wk : Bool) (st : ProtocolState) (m : Message) :
    (st.versionMismatchIgnore = true →
      (processMessage wk st m).1.versionMismatchIgnore = true ∧
      countVM (processMessage wk st m).2 = 0) ∧
    countVM (processMessage wk st m).2 ≤ 1 ∧
    (countVM (processMessage wk st m).2 = 1 →
      (processMessage wk st m).1.versionMismatchIgnore = true) := by
  obtain ⟨hli, htr, htl, hcr, hcl, hvmi, hevc, hsid, hreg⟩ := logStage_fields wk st
  by_cases h1 : (logStage wk st).1.registry.contains m.sysid = true
  · rw [processMessage_eq_known wk st m h1]
    have htrP := trackAndReport_preserves (logStage wk st).1 m.sysid m.compid m.seq
    rw [countVM_append, countVM_append, logStage_countVM,
      trackAndReport_countVM, countVM_mr, htrP.1, hvmi]
    exact ⟨fun h => ⟨h, rfl⟩, by omega, fun h => absurd h (by omega)⟩
  · have h1f : (logStage wk st).1.registry.contains m.sysid = false :=
      Bool.not_eq_true _ ▸ (Bool.eq_false_iff.mpr h1)
    by_cases h2 : m.msgid = MAVLINK_MSG_ID_HEARTBEAT
    · by_cases h3 : (logStage wk st).1.m_enable_version_check = true ∧
          m.mavlink_version ≠ MAVLINK_VERSION
      · by_cases h5 : (logStage wk st).1.versionMismatchIgnore = false
        · rw [processMessage_eq_mismatchFirst wk st m h1f h2 h3.1 h3.2 h5]
          rw [countVM_append, countVM_append, logStage_countVM, countVM_conflict,
            countVM_vmWarn]
          refine ⟨fun h => ?_, by omega, fun _ => rfl⟩
          rw [hvmi] at h5
          rw [h] at h5
          exact Bool.noConfusion h5
        · have h5t : (logStage wk st).1.versionMismatchIgnore = true := by
            revert h5; cases (logStage wk st).1.versionMismatchIgnore <;> simp
          rw [processMessage_eq_mismatchLater wk st m h1f h2 h3.1 h3.2 h5t]
          rw [countVM_append, logStage_countVM, countVM_conflict, h5t]
          exact ⟨fun _ => ⟨rfl, rfl⟩, by omega, fun _ => rfl⟩
      · rw [processMessage_eq_create wk st m h1f h2 h3]
        have htrP := trackAndReport_preserves
          { (logStage wk st).1 with
            registry := m.sysid :: (logStage wk st).1.registry }
          m.sysid m.compid m.seq
        have hc : countVM (Event.createdUAS m.sysid ::
            ((trackAndReport
                { (logStage wk st).1 with
                  registry := m.sysid :: (logStage wk st).1.registry }
                m.sysid m.compid m.seq).2 ++
             [Event.messageReceived m.sysid])) = 0 := by
          rw [countVM_created_cons, countVM_append, trackAndReport_countVM, countVM_mr]
        rw [countVM_append, countVM_append, logStage_countVM, countVM_conflict, hc]
        refine ⟨fun h => ⟨?_, rfl⟩, by omega, fun h => absurd h (by omega)⟩
        rw [htrP.1]
        exact hvmi.trans h
    · rw [processMessage_eq_drop wk st m h1f h2]
      rw [logStage_countVM, hvmi]
      exact ⟨fun h => ⟨h, rfl⟩, by omega, fun h => absurd h (by omega)⟩

theorem processAll_vm : ∀ (inputs : List (Bool × Message)) (st : ProtocolState),
    (st.versionMismatchIgnore = true →
      countVM (processAll st inputs).2 = 0 ∧
      (processAll st inputs).1.versionMismatchIgnore = true) ∧
    countVM (processAll st inputs).2 ≤ 1 := by
  intro inputs
  induction inputs with
  | nil =>
    intro st
    exact ⟨fun h => ⟨rfl, h⟩, by show countVM [] ≤ 1; decide⟩
  | cons p rest ih =>
    intro st
    obtain ⟨wk, m⟩ := p
    have hstep := processMessage_vm wk st m
    have hsplit : countVM (processAll st ((wk, m) :: rest)).2 =
        countVM (processMessage wk st m).2 +
        countVM (processAll (processMessage wk st m).1 rest).2 := by
      show countVM ((processMessage wk st m).2 ++
        (processAll (processMessage wk st m).1 rest).2) =
        countVM (processMessage wk st m).2 +
        countVM (processAll (processMessage wk st m).1 rest).2
      exact countVM_append _ _
    have hfin : (processAll st ((wk, m) :: rest)).1 =
        (processAll (processMessage wk st m).1 rest).1 := rfl
    constructor
    · intro h
      have hs := hstep.1 h
      have hr := (ih (processMessage wk st m).1).1 hs.1
      rw [hsplit, hs.2, hr.1, hfin]
      exact ⟨rfl, hr.2⟩
    · by_cases hc : countVM (processMessage wk st m).2 = 1
      · have hs := hstep.2.2 hc
        have hr := (ih (processMessage wk st m).1).1 hs
        rw [hsplit, hc, hr.1]
      · have hz : countVM (processMessage wk st m).2 = 0 := by
          have := hstep.2.1; omega
        have hr := (ih (processMessage wk st m).1).2
        rw [hsplit, hz]
        omega

theorem enableLogging_vmi (openOk enabled : Bool) (st : ProtocolState) :
    (enableLogging openOk enabled st).1.versionMismatchIgnore =
      st.versionMismatchIgnore := by
  unfold enableLogging
  cases hex : st.m_logfileExists <;> cases hop : st.m_logfileOpen <;>
    cases openOk <;> cases enabled <;> simp [hex, hop]

/-- C4: with version checking enabled, the version-mismatch warning is
emitted exactly once per process lifetime: over any run it is emitted at
most once; from a state with the latch set it is never emitted again and
the latch stays set; the first mismatched heartbeat from an unregistered
system id fires the warning and latches the flag; and `enableLogging`
never touches the latch, which no operation resets. -/
theorem c4_version_mismatch_once :
    (∀ (st : ProtocolState) (inputs : List (Bool × Message)),
      st.versionMismatchIgnore = true →
      countVM (processAll st inputs).2 = 0 ∧
      (processAll st inputs).1.versionMismatchIgnore = true) ∧
    (∀ (st : ProtocolState) (inputs : List (Bool × Message)),
      countVM (processAll st inputs).2 ≤ 1) ∧
    (∀ (wk : Bool) (st : ProtocolState) (m : Message),
      st.versionMismatchIgnore = false →
      st.m_enable_version_check = true →
      st.registry.contains m.sysid = false →
      m.msgid = MAVLINK_MSG_ID_HEARTBEAT →
      m.mavlink_version ≠ MAVLINK_VERSION →
      countVM (processMessage wk st m).2 = 1 ∧
      (processMessage wk st m).1.versionMismatchIgnore = true) ∧
    (∀ (openOk enabled : Bool) (st : ProtocolState),
      (enableLogging openOk enabled st).1.versionMismatchIgnore =
        st.versionMismatchIgnore) := by
  refine ⟨fun st inputs h => (processAll_vm inputs st).1 h,
    fun st inputs => (processAll_vm inputs st).2,
    fun wk st m hvf hvc hnc hhb hvm => ?_, enableLogging_vmi⟩
  obtain ⟨hli, htr, htl, hcr, hcl, hvmi, hevc, hsid, hreg⟩ := logStage_fields wk st
  have h1f : (logStage wk st).1.registry.contains m.sysid = false := by
    rw [hreg]; exact hnc
  have h3 : (logStage wk st).1.m_enable_version_check = true := by
    rw [hevc]; exact hvc
  have h5 : (logStage wk st).1.versionMismatchIgnore = false := by
    rw [hvmi]; exact hvf
  rw [processMessage_eq_mismatchFirst wk st m h1f hhb h3 hvm h5]
  rw [countVM_append, countVM_append, logStage_countVM, countVM_conflict]
  exact ⟨rfl, rfl⟩

/-- Witness for C4 at the first-mismatch clause: processing `mismatchMsg`
from the fresh state emits the warning once and latches the flag. -/
theorem c4_version_mismatch_once_witness :
    initState.versionMismatchIgnore = false ∧
    initState.m_enable_version_check = true ∧
    initState.registry.contains mismatchMsg.sysid = false ∧
    mismatchMsg.msgid = MAVLINK_MSG_ID_HEARTBEAT ∧
    mismatchMsg.mavlink_version ≠ MAVLINK_VERSION ∧
    (countVM (processMessage true initState mismatchMsg).2 = 1 ∧
     (processMessage true initState mismatchMsg).1.versionMismatchIgnore = true) :=
  ⟨by decide, by decide, by decide, by decide, by decide,
   c4_version_mismatch_once.2.2.1 true initState mismatchMsg (by decide) (by decide)
     (by decide) (by decide) (by decide)⟩

/-! Status-only traces: traces holding no creation, dispatch or loss events. -/

theorem logStage_status (wk : Bool) (st : ProtocolState) :
    ∀ e ∈ (logStage wk st).2, e.isStatus = true := by
  rcases logStage_shape wk st with h | h <;> rw [h] <;> simp [Event.isStatus]

theorem conflict_status (wk : Bool) (st : ProtocolState) (m : Message) :
    ∀ e ∈ (if m.sysid = (logStage wk st).1.systemId then
      [Event.protocolStatusMessage Warning.systemIdConflict] else []),
    e.isStatus = true := by
  split <;> simp [Event.isStatus]

theorem not_mem_of_status (evs : List Event) (h : ∀ e ∈ evs, e.isStatus = true) :
    (∀ x, Event.messageReceived x ∉ evs) ∧
    (∀ x, Event.createdUAS x ∉ evs) ∧
    (∀ x r, Event.receiveLossChanged x r ∉ evs) := by
  refine ⟨fun x hx => ?_, fun x hx => ?_, fun x r hx => ?_⟩ <;>
    have := h _ hx <;> simp [Event.isStatus] at this

/-- C5: a heartbeat from a system id with no existing vehicle, carrying a
protocol version different from the supported one while version checking is
enabled, is discarded: no vehicle is created, the registry and all counters
and the sequence table are unchanged, and neither a dispatch, nor a creation,
nor a loss-ratio event is emitted; processing of the remaining input
continues from the resulting state.  With version checking disabled the
sender is admitted regardless of the version field: the vehicle is created
and the message dispatched. -/
theorem c5_version_gate_discard (wk : Bool) (st : ProtocolState) (m : Message)
    (rest : List (Bool × Message))
    (hm : m.msgid = MAVLINK_MSG_ID_HEARTBEAT)
    (hnv : st.registry.contains m.sysid = false) :
    (st.m_enable_version_check = true → m.mavlink_version ≠ MAVLINK_VERSION →
      ((processMessage wk st m).1.registry = st.registry ∧
       (processMessage wk st m).1.totalReceiveCounter = st.totalReceiveCounter ∧
       (processMessage wk st m).1.totalLossCounter = st.totalLossCounter ∧
       (processMessage wk st m).1.currReceiveCounter = st.currReceiveCounter ∧
       (processMessage wk st m).1.currLossCounter = st.currLossCounter ∧
       (processMessage wk st m).1.lastIndex = st.lastIndex ∧
       (∀ x, Event.messageReceived x ∉ (processMessage wk st m).2) ∧
       (∀ x, Event.createdUAS x ∉ (processMessage wk st m).2) ∧
       (∀ x r, Event.receiveLossChanged x r ∉ (processMessage wk st m).2) ∧
       processAll st ((wk, m) :: rest) =
         ((processAll (processMessage wk st m).1 rest).1,
          (processMessage wk st m).2 ++
            (processAll (processMessage wk st m).1 rest).2))) ∧
    (st.m_enable_version_check = false →
      (Event.createdUAS m.sysid ∈ (processMessage wk st m).2 ∧
       (processMessage wk st m).1.registry.contains m.sysid = true ∧
       Event.messageReceived m.sysid ∈ (processMessage wk st m).2)) := by
  obtain ⟨hli, htr, htl, hcr, hcl, hvmi, hevc, hsid, hreg⟩ := logStage_fields wk st
  have h1f : (logStage wk st).1.registry.contains m.sysid = false := by
    rw [hreg]; exact hnv
  constructor
  · intro hvc hvm
    have h3 : (logStage wk st).1.m_enable_version_check = true := by
      rw [hevc]; exact hvc
    have hstatus : ∀ e ∈ (logStage wk st).2 ++
        (if m.sysid = (logStage wk st).1.systemId then
          [Event.protocolStatusMessage Warning.systemIdConflict] else []) ++
        [Event.protocolStatusMessage Warning.versionMismatch],
        e.isStatus = true := by
      intro e he
      rcases List.mem_append.mp he with he2 | he3
      · rcases List.mem_append.mp he2 with hl | hc
        · exact logStage_status wk st e hl
        · exact conflict_status wk st m e hc
      · simp only [List.mem_singleton] at he3
        subst he3; rfl
    have hstatusB : ∀ e ∈ (logStage wk st).2 ++
        (if m.sysid = (logStage wk st).1.systemId then
          [Event.protocolStatusMessage Warning.systemIdConflict] else []),
        e.isStatus = true := by
      intro e he
      rcases List.mem_append.mp he with hl | hc
      · exact logStage_status wk st e hl
      · exact conflict_status wk st m e hc
    have hcont : processAll st ((wk, m) :: rest) =
        ((processAll (processMessage wk st m).1 rest).1,
         (processMessage wk st m).2 ++
           (processAll (processMessage wk st m).1 rest).2) := rfl
    by_cases h5 : (logStage wk st).1.versionMismatchIgnore = false
    · obtain ⟨hmr, hcu, hrl⟩ := not_mem_of_status _ hstatus
      refine ⟨?_, ?_, ?_, ?_, ?_, ?_, ?_, ?_, ?_, hcont⟩ <;>
        rw [processMessage_eq_mismatchFirst wk st m h1f hm h3 hvm h5]
      exacts [hreg, htr, htl, hcr, hcl, hli, hmr, hcu, hrl]
    · have h5t : (logStage wk st).1.versionMismatchIgnore = true := by
        revert h5; cases (logStage wk st).1.versionMismatchIgnore <;> simp
      obtain ⟨hmr, hcu, hrl⟩ := not_mem_of_status _ hstatusB
      refine ⟨?_, ?_, ?_, ?_, ?_, ?_, ?_, ?_, ?_, hcont⟩ <;>
        rw [processMessage_eq_mismatchLater wk st m h1f hm h3 hvm h5t]
      exacts [hreg, htr, htl, hcr, hcl, hli, hmr, hcu, hrl]
  · intro hvcf
    have h3 : ¬((logStage wk st).1.m_enable_version_check = true ∧
        m.mavlink_version ≠ MAVLINK_VERSION) := by
      rw [hevc, hvcf]; simp
    rw [processMessage_eq_create wk st m h1f hm h3]
    have htrP := trackAndReport_preserves
      { (logStage wk st).1 with
        registry := m.sysid :: (logStage wk st).1.registry }
      m.sysid m.compid m.seq
    refine ⟨?_, ?_, ?_⟩
    · simp
    · rw [htrP.2.2.2.2.2.2]
      simp [List.contains_cons]
    · simp

/-- Witness for C5 at the concrete mismatch heartbeat `mismatchMsg` from the
fresh state with version checking enabled. -/
theorem c5_version_gate_discard_witness :
    mismatchMsg.msgid = MAVLINK_MSG_ID_HEARTBEAT ∧
    initState.registry.contains mismatchMsg.sysid = false ∧
    ((initState.m_enable_version_check = true →
      mismatchMsg.mavlink_version ≠ MAVLINK_VERSION →
      ((processMessage true initState mismatchMsg).1.registry = initState.registry ∧
       (processMessage true initState mismatchMsg).1.totalReceiveCounter =
         initState.totalReceiveCounter ∧
       (processMessage true initState mismatchMsg).1.totalLossCounter =
         initState.totalLossCounter ∧
       (processMessage true initState mismatchMsg).1.currReceiveCounter =
         initState.currReceiveCounter ∧
       (processMessage true initState mismatchMsg).1.currLossCounter =
         initState.currLossCounter ∧
       (processMessage true initState mismatchMsg).1.lastIndex =
         initState.lastIndex ∧
       (∀ x, Event.messageReceived x ∉ (processMessage true initState mismatchMsg).2) ∧
       (∀ x, Event.createdUAS x ∉ (processMessage true initState mismatchMsg).2) ∧
       (∀ x r, Event.receiveLossChanged x r ∉
          (processMessage true initState mismatchMsg).2) ∧
       processAll initState ((true, mismatchMsg) :: []) =
         ((processAll (processMessage true initState mismatchMsg).1 []).1,
          (processMessage true initState mismatchMsg).2 ++
            (processAll (processMessage true initState mismatchMsg).1 []).2))) ∧
     (initState.m_enable_version_check = false →
      (Event.createdUAS mismatchMsg.sysid ∈
         (processMessage true initState mismatchMsg).2 ∧
       (processMessage true initState mismatchMsg).1.registry.contains
         mismatchMsg.sysid = true ∧
       Event.messageReceived mismatchMsg.sysid ∈
         (processMessage true initState mismatchMsg).2))) :=
  ⟨by decide, by decide,
   c5_version_gate_discard true initState mismatchMsg [] (by decide) (by decide)⟩

/-- C9 (amended): an unknown-sender non-heartbeat message leaves the vehicle
registry, all four counters, the sequence table, the version latch and the
version-check flag unchanged, creates no vehicle, emits no dispatch, no
creation, no loss-ratio event and no admission warning; and when the
independent logging sink does not fail (logging off, no file, or the write
succeeded) the processing of the message is a complete no-op.  (The original
claim fails only because the logging sink, which runs for every decoded
frame before the vehicle lookup, can itself emit a logging-failure warning
and disable logging when the write fails; see the counterexample.) -/
theorem c9_unknown_sender_drop (wk : Bool) (st : ProtocolState) (m : Message)
    (hm : m.msgid ≠ MAVLINK_MSG_ID_HEARTBEAT)
    (hnv : st.registry.contains m.sysid = false) :
    (processMessage wk st m).1.registry = st.registry ∧
    (processMessage wk st m).1.totalReceiveCounter = st.totalReceiveCounter ∧
    (processMessage wk st m).1.totalLossCounter = st.totalLossCounter ∧
    (processMessage wk st m).1.currReceiveCounter = st.currReceiveCounter ∧
    (processMessage wk st m).1.currLossCounter = st.currLossCounter ∧
    (processMessage wk st m).1.lastIndex = st.lastIndex ∧
    (processMessage wk st m).1.versionMismatchIgnore = st.versionMismatchIgnore ∧
    (processMessage wk st m).1.m_enable_version_check = st.m_enable_version_check ∧
    (processMessage wk st m).1.systemId = st.systemId ∧
    (∀ x, Event.messageReceived x ∉ (processMessage wk st m).2) ∧
    (∀ x, Event.createdUAS x ∉ (processMessage wk st m).2) ∧
    (∀ x r, Event.receiveLossChanged x r ∉ (processMessage wk st m).2) ∧
    Event.protocolStatusMessage Warning.systemIdConflict ∉ (processMessage wk st m).2 ∧
    Event.protocolStatusMessage Warning.versionMismatch ∉ (processMessage wk st m).2 ∧
    (¬(st.m_loggingEnabled = true ∧ st.m_logfileExists = true ∧ wk = false) →
      processMessage wk st m = (st, [])) := by
  obtain ⟨hli, htr, htl, hcr, hcl, hvmi, hevc, hsid, hreg⟩ := logStage_fields wk st
  have h1f : (logStage wk st).1.registry.contains m.sysid = false := by
    rw [hreg]; exact hnv
  have heq := processMessage_eq_drop wk st m h1f hm
  have hnm := not_mem_of_status (logStage wk st).2 (logStage_status wk st)
  have hwarn : Event.protocolStatusMessage Warning.systemIdConflict ∉
      (logStage wk st).2 ∧
      Event.protocolStatusMessage Warning.versionMismatch ∉ (logStage wk st).2 := by
    rcases logStage_shape wk st with h | h <;> rw [h] <;> simp
  refine ⟨?_, ?_, ?_, ?_, ?_, ?_, ?_, ?_, ?_, ?_, ?_, ?_, ?_, ?_, ?_⟩ <;>
    try rw [heq]
  exacts [hreg, htr, htl, hcr, hcl, hli, hvmi, hevc, hsid,
    hnm.1, hnm.2.1, hnm.2.2, hwarn.1, hwarn.2,
    fun hno => logStage_noop wk st hno]

/-- Counterexample to C9 as stated: with logging enabled and a failing log
write, processing a non-heartbeat message from an unknown sender is not
silent — the logging-failure warning is emitted and the logging-enabled
configuration flag flips from true to false. -/
theorem c9_unknown_sender_drop_counterexample :
    logOnState.registry.contains strayMsg.sysid = false ∧
    strayMsg.msgid ≠ MAVLINK_MSG_ID_HEARTBEAT ∧
    Event.protocolStatusMessage Warning.loggingFailed ∈
      (processMessage false logOnState strayMsg).2 ∧
    logOnState.m_loggingEnabled = true ∧
    (processMessage false logOnState strayMsg).1.m_loggingEnabled = false := by
  decide

/-- Witness for C9 (amended): a stray message with logging disabled is a
complete no-op. -/
theorem c9_unknown_sender_drop_witness :
    strayMsg.msgid ≠ MAVLINK_MSG_ID_HEARTBEAT ∧
    initState.registry.contains strayMsg.sysid = false ∧
    ((processMessage true initState strayMsg).1.registry = initState.registry ∧
     (processMessage true initState strayMsg).1.totalReceiveCounter =
       initState.totalReceiveCounter ∧
     (processMessage true initState strayMsg).1.totalLossCounter =
       initState.totalLossCounter ∧
     (processMessage true initState strayMsg).1.currReceiveCounter =
       initState.currReceiveCounter ∧
     (processMessage true initState strayMsg).1.currLossCounter =
       initState.currLossCounter ∧
     (processMessage true initState strayMsg).1.lastIndex = initState.lastIndex ∧
     (processMessage true initState strayMsg).1.versionMismatchIgnore =
       initState.versionMismatchIgnore ∧
     (processMessage true initState strayMsg).1.m_enable_version_check =
       initState.m_enable_version_check ∧
     (processMessage true initState strayMsg).1.systemId = initState.systemId ∧
     (∀ x, Event.messageReceived x ∉ (processMessage true initState strayMsg).2) ∧
     (∀ x, Event.createdUAS x ∉ (processMessage true initState strayMsg).2) ∧
     (∀ x r, Event.receiveLossChanged x r ∉
        (processMessage true initState strayMsg).2) ∧
     Event.protocolStatusMessage Warning.systemIdConflict ∉
       (processMessage true initState strayMsg).2 ∧
     Event.protocolStatusMessage Warning.versionMismatch ∉
       (processMessage true initState strayMsg).2 ∧
     (¬(initState.m_loggingEnabled = true ∧ initState.m_logfileExists = true ∧
        true = false) →
       processMessage true initState strayMsg = (initState, []))) :=
  ⟨by decide, by decide,
   c9_unknown_sender_drop true initState strayMsg (by decide) (by decide)⟩

/-- C8 evaluation: when opening the logfile fails during enableLogging(true),
the source emits the open-failure warning and assigns false to the logging
flag in the failure branch, but the trailing unconditional assignment
(line 425) overwrites it with the requested value, so the call returns with
the logging-enabled state still true and even emits loggingChanged(true);
the file stays closed.  This contradicts the claim (and the code's own
"Stopping logging." message), which require the state to end up disabled. -/
theorem c8_open_failure_state :
    (enableLogging false true fileSetState).1.m_loggingEnabled = true ∧
    (enableLogging false true fileSetState).1.m_logfileOpen = false ∧
    Event.protocolStatusMessage Warning.logOpenFailed ∈
      (enableLogging false true fileSetState).2 ∧
    Event.loggingChanged true ∈ (enableLogging false true fileSetState).2 := by
  decide

set_option maxRecDepth 8000 in
/-- Counterexample to C7 as stated: the logging block always writes the whole
fixed-size buffer of MAVLINK_MAX_PACKET_LEN + 8 bytes, so for a frame shorter
than the maximum the record is not just the timestamp followed by the frame
and nothing else — trailing padding bytes fill the record. -/
theorem c7_log_record_counterexample :
    (logRecord (fun _ => 0) 50 0 hbPayloadMsg).length = 271 ∧
    (quint64LEBytes 0 ++ mavlink_msg_to_send_buffer 50 hbPayloadMsg).length = 19 ∧
    logRecord (fun _ => 0) 50 0 hbPayloadMsg ≠
      quint64LEBytes 0 ++ mavlink_msg_to_send_buffer 50 hbPayloadMsg := by
  refine ⟨by decide, by decide, ?_⟩
  intro h
  have hlen := congrArg List.length h
  rw [show (logRecord (fun _ => 0) 50 0 hbPayloadMsg).length = 271 from by decide,
    show (quint64LEBytes 0 ++ mavlink_msg_to_send_buffer 50 hbPayloadMsg).length = 19
      from by decide] at hlen
  exact absurd hlen (by decide)

/-- C7 (amended): every log record is exactly MAVLINK_MAX_PACKET_LEN + 8
bytes long and starts with the 8-byte little-endian microsecond timestamp
immediately followed by the complete framed message (start marker through
checksum); the remainder of the fixed-width record is residual buffer
padding, so records are fixed-length rather than delimited solely by the
frame's implicit length. -/
theorem c7_log_record_layout (junk : Nat → Nat) (ce t : Nat) (m : Message)
    (hp : m.payload.length ≤ 255) :
    (logRecord junk ce t m).length = MAVLINK_MAX_PACKET_LEN + 8 ∧
    (logRecord junk ce t m).take 8 = quint64LEBytes t ∧
    ((logRecord junk ce t m).drop 8).take
      (mavlink_msg_to_send_buffer ce m).length = mavlink_msg_to_send_buffer ce m := by
  have hts : (quint64LEBytes t).length = 8 := rfl
  have hfl : (mavlink_msg_to_send_buffer ce m).length = 8 + m.payload.length := by
    simp only [mavlink_msg_to_send_buffer, List.length_cons, List.length_append,
      List.length_nil]
    omega
  refine ⟨?_, ?_, ?_⟩
  · unfold logRecord
    simp only [List.length_append, List.length_map, List.length_range, hts, hfl,
      MAVLINK_MAX_PACKET_LEN]
    omega
  · unfold logRecord
    rw [List.append_assoc,
      show (8 : Nat) = (quint64LEBytes t).length from hts.symm]
    exact List.take_left _ _
  · unfold logRecord
    rw [List.append_assoc,
      show (8 : Nat) = (quint64LEBytes t).length from hts.symm,
      List.drop_left]
    exact List.take_left _ _

/-- Witness for C7 (amended) at the concrete heartbeat frame. -/
theorem c7_log_record_layout_witness :
    hbPayloadMsg.payload.length ≤ 255 ∧
    ((logRecord (fun _ => 0) 50 0 hbPayloadMsg).length = MAVLINK_MAX_PACKET_LEN + 8 ∧
     (logRecord (fun _ => 0) 50 0 hbPayloadMsg).take 8 = quint64LEBytes 0 ∧
     ((logRecord (fun _ => 0) 50 0 hbPayloadMsg).drop 8).take
       (mavlink_msg_to_send_buffer 50 hbPayloadMsg).length =
       mavlink_msg_to_send_buffer 50 hbPayloadMsg) :=
  ⟨by decide, c7_log_record_layout (fun _ => 0) 50 0 hbPayloadMsg (by decide)⟩

end MAVLinkCore
